import Mathlib

/-
Verification development for `rasa/nlu/classifiers/embedding_intent_classifier.py`
(the `EmbeddingIntentClassifier` component and the `DIET` model class).

Python dictionaries are modelled as association lists with unique keys,
Python `sorted` as a stable sort, numpy float scores as rationals (the claims
about scores are purely order-theoretic), and tensorflow tensors as nested
lists.  Fallible Python code (attribute lookups, dict subscripts, raising
constructors) is modelled with `Except String`.
-/

namespace Rasa

/-! ### Association-list model of Python dicts -/

/-- Lookup of a key in an association list, mirroring `d[k]` on a Python dict
(returns `none` where Python would raise `KeyError`). -/
def lookupKey {α β : Type} [DecidableEq α] : List (α × β) → α → Option β
  | [], _ => none
  | (k, v) :: rest, a => if k = a then some v else lookupKey rest a

/-- Keys of an association list, in order. -/
def dictKeys {α β : Type} (l : List (α × β)) : List α := l.map Prod.fst

/-- Values of an association list, in order. -/
def dictValues {α β : Type} (l : List (α × β)) : List β := l.map Prod.snd

/-- The Python dict comprehension `{v: k for k, v in d.items()}` used to build
`inverted_label_dict` and `inverted_tag_dict`. -/
def invertDict {α β : Type} (l : List (α × β)) : List (β × α) :=
  l.map (fun p => (p.2, p.1))

/-- Python dict item assignment `d[k] = v`: updates the value in place when the
key is present, appends a new entry otherwise. -/
def dictInsert {α β : Type} [DecidableEq α] (l : List (α × β)) (k : α) (v : β) :
    List (α × β) :=
  if l.any (fun p => decide (p.1 = k)) then
    l.map (fun p => if p.1 = k then (k, v) else p)
  else l ++ [(k, v)]

theorem lookupKey_eq_some_of_mem {α β : Type} [DecidableEq α] :
    ∀ {l : List (α × β)} {a : α} {b : β},
      (dictKeys l).Nodup → (a, b) ∈ l → lookupKey l a = some b := by
  intro l
  induction l with
  | nil => intro a b _ h; cases h
  | cons p rest ih =>
    intro a b hnd hmem
    obtain ⟨k, v⟩ := p
    simp only [dictKeys, List.map_cons, List.nodup_cons] at hnd
    rcases List.mem_cons.mp hmem with heq | htail
    · injection heq with h1 h2
      subst h1; subst h2
      simp [lookupKey]
    · have hk : k ≠ a := by
        intro hka
        apply hnd.1
        rw [hka]
        exact List.mem_map.mpr ⟨(a, b), htail, rfl⟩
      simp only [lookupKey, if_neg hk]
      exact ih hnd.2 htail

theorem mem_of_lookupKey_eq_some {α β : Type} [DecidableEq α] :
    ∀ {l : List (α × β)} {a : α} {b : β},
      lookupKey l a = some b → (a, b) ∈ l := by
  intro l
  induction l with
  | nil => intro a b h; simp [lookupKey] at h
  | cons p rest ih =>
    intro a b h
    obtain ⟨k, v⟩ := p
    by_cases hk : k = a
    · subst hk
      simp only [lookupKey, if_pos, Option.some.injEq] at h
      rw [← h]
      exact List.mem_cons_self _ _
    · simp only [lookupKey, if_neg hk] at h
      exact List.mem_cons_of_mem _ (ih h)

theorem dictKeys_invertDict {α β : Type} (l : List (α × β)) :
    dictKeys (invertDict l) = dictValues l := by
  simp [dictKeys, invertDict, dictValues, List.map_map, Function.comp]

/-- Lookup in the inverted dict succeeds when the original dict has pairwise
distinct values. -/
theorem lookupKey_invertDict {α β : Type} [DecidableEq α] [DecidableEq β]
    {l : List (α × β)} (hv : (dictValues l).Nodup) {a : α} {b : β}
    (h : (a, b) ∈ l) : lookupKey (invertDict l) b = some a := by
  apply lookupKey_eq_some_of_mem
  · rw [dictKeys_invertDict]; exact hv
  · exact List.mem_map.mpr ⟨(a, b), h, rfl⟩

/-! ### Label and tag id dictionaries (`_create_label_id_dict`,
`_create_tag_id_dict`) -/

/-- Python `sorted(set(l))`: the distinct elements of `l` in ascending order
(`List.dedup` removes duplicates, a stable sort orders them). -/
def sortedDistinct (l : List String) : List String :=
  List.insertionSort (fun a b => a ≤ b) l.dedup

/-- Source `_create_label_id_dict`: drop `None` labels, enumerate the sorted
distinct label names from 0.  The input list holds `example.get(attribute)`
for every intent example. -/
def _create_label_id_dict (labels : List (Option String)) : List (String × Nat) :=
  (sortedDistinct (labels.filterMap id)).enum.map (fun p => (p.2, p.1))

/-- Source `_create_tag_id_dict`: drop `None` tags, enumerate the sorted
distinct entity tag names from 1, then assign id 0 to the outside tag `"O"`.
The input list holds `e["entity"]` for every entity annotation of every
entity example. -/
def _create_tag_id_dict (entityTags : List (Option String)) : List (String × Nat) :=
  dictInsert
    ((sortedDistinct (entityTags.filterMap id)).enum.map (fun p => (p.2, p.1 + 1)))
    "O" 0

theorem sortedDistinct_nodup (l : List String) : (sortedDistinct l).Nodup :=
  ((List.perm_insertionSort _ _).nodup_iff).mpr (List.nodup_dedup l)

theorem mem_sortedDistinct {l : List String} {s : String} :
    s ∈ sortedDistinct l ↔ s ∈ l := by
  rw [sortedDistinct, List.mem_insertionSort, List.mem_dedup]

theorem dictKeys_enumMap {α β : Type} (L : List α) (g : Nat × α → β) :
    dictKeys (L.enum.map (fun p => (p.2, g p))) = L := by
  rw [dictKeys, List.map_map]
  have : (Prod.fst ∘ fun p : Nat × α => (p.2, g p)) = Prod.snd := rfl
  rw [this, List.enum_map_snd]

theorem dictValues_enumMap {α β : Type} (L : List α) (g : Nat × α → β) :
    dictValues (L.enum.map (fun p => (p.2, g p))) = L.enum.map g := by
  rw [dictValues, List.map_map]
  rfl

theorem enum_nodup {α : Type} (L : List α) : L.enum.Nodup :=
  List.Nodup.of_map Prod.fst (by rw [List.enum_map_fst]; exact List.nodup_range _)

theorem enum_index_inj {α : Type} {L : List α} (hL : L.Nodup) {i j : Nat} {s : α}
    (hi : (i, s) ∈ L.enum) (hj : (j, s) ∈ L.enum) : i = j := by
  have hi' := List.mk_mem_enum_iff_getElem?.mp hi
  have hj' := List.mk_mem_enum_iff_getElem?.mp hj
  have hlen : i < L.length := by
    rcases List.getElem?_eq_some.mp hi' with ⟨h, _⟩
    exact h
  exact List.getElem?_inj hlen hL (hi'.trans hj'.symm)

theorem roundtrip_of_nodups {α β : Type} [DecidableEq α] [DecidableEq β]
    {l : List (α × β)} (hk : (dictKeys l).Nodup) (hv : (dictValues l).Nodup)
    {t : α} {v : β} (h : (t, v) ∈ l) :
    lookupKey l t = some v ∧ lookupKey (invertDict l) v = some t :=
  ⟨lookupKey_eq_some_of_mem hk h, lookupKey_invertDict hv h⟩

theorem label_dict_keys (labels : List (Option String)) :
    dictKeys (_create_label_id_dict labels) = sortedDistinct (labels.filterMap id) :=
  dictKeys_enumMap _ Prod.fst

theorem label_dict_values (labels : List (Option String)) :
    dictValues (_create_label_id_dict labels) =
      List.range (sortedDistinct (labels.filterMap id)).length := by
  rw [_create_label_id_dict, dictValues_enumMap]
  exact List.enum_map_fst _

/-- The tag dict when the outside tag is itself among the observed tags:
the enumeration entry for `"O"` has its value overwritten to 0. -/
theorem tag_dict_eq_of_mem {entityTags : List (Option String)}
    (h : "O" ∈ sortedDistinct (entityTags.filterMap id)) :
    _create_tag_id_dict entityTags =
      (sortedDistinct (entityTags.filterMap id)).enum.map
        (fun p => (p.2, if p.2 = "O" then 0 else p.1 + 1)) := by
  set S := sortedDistinct (entityTags.filterMap id) with hS
  obtain ⟨i, hi⟩ := List.mem_iff_getElem?.mp h
  have hmem : (i, "O") ∈ S.enum := List.mk_mem_enum_iff_getElem?.mpr hi
  have hany : (S.enum.map (fun p => (p.2, p.1 + 1))).any
      (fun p => decide (p.1 = "O")) = true := by
    apply List.any_eq_true.mpr
    exact ⟨("O", i + 1), List.mem_map.mpr ⟨(i, "O"), hmem, rfl⟩, by simp⟩
  rw [_create_tag_id_dict, dictInsert, if_pos hany, List.map_map]
  apply List.map_congr_left
  intro p _
  by_cases hp : p.2 = "O" <;> simp [hp, Function.comp]

/-- The tag dict when the outside tag is not among the observed tags:
the entry `("O", 0)` is appended. -/
theorem tag_dict_eq_of_not_mem {entityTags : List (Option String)}
    (h : "O" ∉ sortedDistinct (entityTags.filterMap id)) :
    _create_tag_id_dict entityTags =
      (sortedDistinct (entityTags.filterMap id)).enum.map
        (fun p => (p.2, p.1 + 1)) ++ [("O", 0)] := by
  set S := sortedDistinct (entityTags.filterMap id) with hS
  have hany : (S.enum.map (fun p => (p.2, p.1 + 1))).any
      (fun p => decide (p.1 = "O")) = false := by
    rw [Bool.eq_false_iff]
    intro hc
    obtain ⟨p, hp, hpO⟩ := List.any_eq_true.mp hc
    apply h
    have : p.1 ∈ dictKeys (S.enum.map (fun q => (q.2, q.1 + 1))) :=
      List.mem_map.mpr ⟨p, hp, rfl⟩
    rw [dictKeys_enumMap] at this
    rwa [of_decide_eq_true hpO] at this
  rw [_create_tag_id_dict, dictInsert, if_neg (by rw [hany]; simp)]

theorem tag_dict_keys_nodup (entityTags : List (Option String)) :
    (dictKeys (_create_tag_id_dict entityTags)).Nodup := by
  set S := sortedDistinct (entityTags.filterMap id) with hS
  by_cases h : "O" ∈ S
  · rw [tag_dict_eq_of_mem h, dictKeys_enumMap]
    exact sortedDistinct_nodup _
  · rw [tag_dict_eq_of_not_mem h, dictKeys, List.map_append]
    rw [List.nodup_append]
    refine ⟨?_, List.nodup_singleton _, ?_⟩
    · have : List.map Prod.fst (S.enum.map (fun p => (p.2, p.1 + 1))) = S :=
        dictKeys_enumMap _ _
      rw [this]
      exact sortedDistinct_nodup _
    · intro a ha hb
      have : List.map Prod.fst (S.enum.map (fun p => (p.2, p.1 + 1))) = S :=
        dictKeys_enumMap _ _
      rw [this] at ha
      simp only [List.map_cons, List.map_nil, List.mem_singleton] at hb
      exact h (hb ▸ ha)

theorem tag_dict_values_nodup (entityTags : List (Option String)) :
    (dictValues (_create_tag_id_dict entityTags)).Nodup := by
  set S := sortedDistinct (entityTags.filterMap id) with hS
  have hSnd : S.Nodup := sortedDistinct_nodup _
  by_cases h : "O" ∈ S
  · rw [tag_dict_eq_of_mem h, dictValues_enumMap]
    apply List.Nodup.map_on _ (enum_nodup S)
    rintro ⟨i, s⟩ hx ⟨j, t⟩ hy hg
    by_cases hs : s = "O" <;> by_cases ht : t = "O"
    · subst hs; subst ht
      have := enum_index_inj hSnd hx hy
      subst this; rfl
    · simp only [if_pos hs, if_neg ht] at hg
      exact absurd hg.symm (Nat.succ_ne_zero j)
    · simp only [if_neg hs, if_pos ht] at hg
      exact absurd hg (Nat.succ_ne_zero i)
    · simp only [if_neg hs, if_neg ht] at hg
      have hij : i = j := Nat.succ_injective hg
      subst hij
      have hxi := List.mk_mem_enum_iff_getElem?.mp hx
      have hyi := List.mk_mem_enum_iff_getElem?.mp hy
      rw [hxi] at hyi
      injection hyi with hst
      rw [hst]
  · rw [tag_dict_eq_of_not_mem h, dictValues, List.map_append]
    rw [List.nodup_append]
    have hvals : List.map Prod.snd (S.enum.map (fun p => (p.2, p.1 + 1))) =
        (List.range S.length).map (fun i => i + 1) := by
      rw [List.map_map]
      have : (Prod.snd ∘ fun p : Nat × String => (p.2, p.1 + 1)) =
          (fun i => i + 1) ∘ Prod.fst := rfl
      rw [this, ← List.map_map, List.enum_map_fst]
    refine ⟨?_, List.nodup_singleton _, ?_⟩
    · rw [hvals]
      exact (List.nodup_range _).map (fun a b h => Nat.succ_injective h)
    · intro a ha hb
      rw [hvals] at ha
      simp only [List.map_cons, List.map_nil, List.mem_singleton] at hb
      obtain ⟨i, _, hi⟩ := List.mem_map.mp ha
      rw [hb] at hi
      exact Nat.succ_ne_zero i hi

theorem tag_dict_mem_O (entityTags : List (Option String)) :
    ("O", 0) ∈ _create_tag_id_dict entityTags := by
  set S := sortedDistinct (entityTags.filterMap id) with hS
  by_cases h : "O" ∈ S
  · rw [tag_dict_eq_of_mem h]
    obtain ⟨i, hi⟩ := List.mem_iff_getElem?.mp h
    refine List.mem_map.mpr ⟨(i, "O"), List.mk_mem_enum_iff_getElem?.mpr hi, ?_⟩
    simp
  · rw [tag_dict_eq_of_not_mem h]
    exact List.mem_append_right _ (List.mem_singleton.mpr rfl)

theorem tag_dict_mem_of_observed {entityTags : List (Option String)} {t : String}
    (h : some t ∈ entityTags) : ∃ v, (t, v) ∈ _create_tag_id_dict entityTags := by
  set S := sortedDistinct (entityTags.filterMap id) with hS
  have htS : t ∈ S := by
    rw [hS, mem_sortedDistinct]
    exact List.mem_filterMap.mpr ⟨some t, h, rfl⟩
  obtain ⟨i, hi⟩ := List.mem_iff_getElem?.mp htS
  by_cases hO : "O" ∈ S
  · refine ⟨if t = "O" then 0 else i + 1, ?_⟩
    rw [tag_dict_eq_of_mem hO]
    exact List.mem_map.mpr ⟨(i, t), List.mk_mem_enum_iff_getElem?.mpr hi, rfl⟩
  · refine ⟨i + 1, ?_⟩
    rw [tag_dict_eq_of_not_mem hO]
    exact List.mem_append_left _
      (List.mem_map.mpr ⟨(i, t), List.mk_mem_enum_iff_getElem?.mpr hi, rfl⟩)

theorem label_dict_mem_of_observed {labels : List (Option String)} {name : String}
    (h : some name ∈ labels) : ∃ i, (name, i) ∈ _create_label_id_dict labels := by
  have hS : name ∈ sortedDistinct (labels.filterMap id) := by
    rw [mem_sortedDistinct]
    exact List.mem_filterMap.mpr ⟨some name, h, rfl⟩
  obtain ⟨i, hi⟩ := List.mem_iff_getElem?.mp hS
  exact ⟨i, List.mem_map.mpr ⟨(i, name), List.mk_mem_enum_iff_getElem?.mpr hi, rfl⟩⟩

/-- C6: the label and tag dictionaries built during preprocessing are
bijections: `inverted_label_dict[label_id_dict[name]] == name` for every
observed label name, the analogous round trip holds for every observed entity
tag, and tag id 0 always maps to the outside tag `"O"`. -/
theorem C6_dicts_are_bijections
    (labels entityTags : List (Option String)) (name tag : String)
    (hname : some name ∈ labels) (htag : some tag ∈ entityTags) :
    (∃ i, lookupKey (_create_label_id_dict labels) name = some i ∧
      lookupKey (invertDict (_create_label_id_dict labels)) i = some name) ∧
    (∃ j, lookupKey (_create_tag_id_dict entityTags) tag = some j ∧
      lookupKey (invertDict (_create_tag_id_dict entityTags)) j = some tag) ∧
    lookupKey (invertDict (_create_tag_id_dict entityTags)) 0 = some "O" := by
  refine ⟨?_, ?_, ?_⟩
  · obtain ⟨i, hmem⟩ := label_dict_mem_of_observed hname
    have hk : (dictKeys (_create_label_id_dict labels)).Nodup := by
      rw [label_dict_keys]; exact sortedDistinct_nodup _
    have hv : (dictValues (_create_label_id_dict labels)).Nodup := by
      rw [label_dict_values]; exact List.nodup_range _
    exact ⟨i, roundtrip_of_nodups hk hv hmem⟩
  · obtain ⟨j, hmem⟩ := tag_dict_mem_of_observed htag
    exact ⟨j, roundtrip_of_nodups (tag_dict_keys_nodup _)
      (tag_dict_values_nodup _) hmem⟩
  · exact lookupKey_invertDict (tag_dict_values_nodup _) (tag_dict_mem_O _)

/-- Witness for C6 at a concrete two-label, two-tag corpus. -/
theorem C6_dicts_are_bijections_witness :
    (∃ i, lookupKey (_create_label_id_dict [some "greet", some "bye"]) "greet" = some i ∧
      lookupKey (invertDict (_create_label_id_dict [some "greet", some "bye"])) i =
        some "greet") ∧
    (∃ j, lookupKey (_create_tag_id_dict [some "PER", some "LOC"]) "PER" = some j ∧
      lookupKey (invertDict (_create_tag_id_dict [some "PER", some "LOC"])) j =
        some "PER") ∧
    lookupKey (invertDict (_create_tag_id_dict [some "PER", some "LOC"])) 0 =
      some "O" :=
  C6_dicts_are_bijections [some "greet", some "bye"] [some "PER", some "LOC"]
    "greet" "PER" (by decide) (by decide)

/-! ### Tokens, entities, messages -/

/-- A token with character start and end offsets (the fields of
`rasa.nlu.tokenizers.tokenizer.Token` that this component reads). -/
structure Token where
  start : Nat
  stop : Nat
  deriving DecidableEq

/-- An entity record as built by `_convert_tags_to_entities`.  The field
`stop` models the Python dict key `"end"`; `value` is absent (`none`) until
the final loop fills it in. -/
structure Entity where
  entity : String
  start : Nat
  stop : Nat
  extractor : String
  value : Option (List Char) := none
  deriving DecidableEq

/-- Python `entities[-1]["end"] = token.end`: update the end offset of the
last entity.  The empty case would raise `IndexError` in Python; the walk in
the source only extends after having opened a span, so it is unreachable. -/
def updateLastEnd : List Entity → Nat → List Entity
  | [], _ => []
  | [x], e => [{ x with stop := e }]
  | x :: y :: xs, e => x :: updateLastEnd (y :: xs) e

/-- The walk in `_convert_tags_to_entities`: `last_tag` starts as `"O"`; an
outside tag closes any span, a tag change opens a new span, a repeated tag
extends the last span's end offset. -/
def convertLoop : List (Token × String) → String → List Entity → List Entity
  | [], _, acc => acc
  | (tok, tag) :: rest, lastTag, acc =>
    if tag = "O" then convertLoop rest tag acc
    else if lastTag ≠ tag then
      convertLoop rest tag
        (acc ++ [{ entity := tag, start := tok.start, stop := tok.stop,
                   extractor := "DIET" }])
    else convertLoop rest tag (updateLastEnd acc tok.stop)

/-- Source `_convert_tags_to_entities`: walk the zipped (token, tag) pairs,
then set each span's `value` to the text slice `text[start:end]` (character
based, like Python string slicing). -/
def _convert_tags_to_entities (text : List Char) (tokens : List Token)
    (tags : List String) : List Entity :=
  (convertLoop (tokens.zip tags) "O" []).map
    (fun e => { e with value := some ((text.drop e.start).take (e.stop - e.start)) })

/-- C5: on the tag sequence `[O, PER, PER, O, LOC]` the conversion returns
exactly two spans: one covering the two consecutive `PER` tokens (start of the
first, end of the second) and one single-token `LOC` span, each with `value`
equal to the text between its offsets. -/
theorem C5_span_merging (text : List Char) (t0 t1 t2 t3 t4 : Token) :
    _convert_tags_to_entities text [t0, t1, t2, t3, t4]
        ["O", "PER", "PER", "O", "LOC"] =
      [{ entity := "PER", start := t1.start, stop := t2.stop, extractor := "DIET",
         value := some ((text.drop t1.start).take (t2.stop - t1.start)) },
       { entity := "LOC", start := t4.start, stop := t4.stop, extractor := "DIET",
         value := some ((text.drop t4.start).take (t4.stop - t4.start)) }] := by
  simp [_convert_tags_to_entities, convertLoop, updateLastEnd, List.zip]

/-- Intent prediction result: `{"name": ..., "confidence": ...}`. -/
structure IntentResult where
  name : Option String
  confidence : ℚ
  deriving DecidableEq

/-- The slice of a `Message` that this component reads and writes. -/
structure Message where
  text : List Char
  tokens : List Token
  entities : List Entity
  intent : Option IntentResult := none
  intentRanking : Option (List IntentResult) := none
  deriving DecidableEq

/-- The dict returned by `DIET.predict` (keys `"i_scores"`, `"e_ids"`;
`none` models an absent key). -/
structure PredictOut where
  iScores : Option (List ℚ) := none
  eIds : Option (List Nat) := none
  deriving DecidableEq

/-- The instance state of `EmbeddingIntentClassifier` relevant to
prediction: presence of `self.model` and `self.predict_func`, and the two
inverted dictionaries. -/
structure ClassifierState where
  modelPresent : Bool
  predictFuncPresent : Bool
  invertedLabelDict : List (Nat × String)
  invertedTagDict : List (Nat × String)
  deriving DecidableEq

/-- Modelled from the spec: `EntityExtractor.add_extractor_name` (the base
class is not under src) stamps the component's name on each extracted
record — the spec's output contract lists an `extractor` field on new
entities. -/
def add_extractor_name (es : List Entity) : List Entity :=
  es.map (fun e => { e with extractor := "EmbeddingIntentClassifier" })

/-- Source `_predict`: returns `None` when `self.model` or
`self.predict_func` is `None`, otherwise the output of `predict_func` on the
one-message batch (passed in here as `tfOut`). -/
def _predict (st : ClassifierState) (tfOut : PredictOut) : Option PredictOut :=
  if st.modelPresent = false ∨ st.predictFuncPresent = false then none
  else some tfOut

/-- Modelled from the spec: `LABEL_RANKING_LENGTH` is imported from
`rasa.nlu.classifiers` (a module not under src); the spec says the ranking is
truncated to a fixed ranking length, whose value in rasa is 10. -/
def LABEL_RANKING_LENGTH : Nat := 10

/-- numpy `message_sim.argsort()[::-1]`: indices of the scores sorted
ascending, then reversed. -/
def argsortDesc (sim : List ℚ) : List Nat :=
  (List.insertionSort (fun i j => sim.getD i 0 ≤ sim.getD j 0)
    (List.range sim.length)).reverse

/-- numpy `message_sim[::-1].sort()`: the score vector sorted into descending
order. -/
def sortDesc (sim : List ℚ) : List ℚ :=
  List.insertionSort (fun a b : ℚ => b ≤ a) sim

/-- The ranking list comprehension in `_predict_label`: each `(label_idx,
score)` pair becomes a result via an `inverted_label_dict` lookup (a missing
key would raise `KeyError`). -/
def buildRanking (inv : List (Nat × String)) :
    List (Nat × ℚ) → Except String (List IntentResult)
  | [] => .ok []
  | p :: ps =>
    match lookupKey inv p.1 with
    | none => .error "KeyError: label id"
    | some nm => do
      let rest ← buildRanking inv ps
      .ok ({ name := some nm, confidence := p.2 } :: rest)

/-- Source `_predict_label`: neutral result when `self.model` is `None`;
otherwise subscript the output dict (raising on `None` or a missing
`"i_scores"` key), sort ids and scores descending, and build the top label
plus the ranking truncated to `LABEL_RANKING_LENGTH`. -/
def _predict_label (st : ClassifierState) (out : Option PredictOut) :
    Except String (IntentResult × List IntentResult) :=
  if st.modelPresent = false then .ok ({ name := none, confidence := 0 }, [])
  else
    match out with
    | none => .error "TypeError: NoneType object is not subscriptable"
    | some o =>
      match o.iScores with
      | none => .error "KeyError: i_scores"
      | some sim =>
        let labelIds := argsortDesc sim
        let messageSim := sortDesc sim
        if labelIds.length > 0 then
          match lookupKey st.invertedLabelDict (labelIds.headD 0) with
          | none => .error "KeyError: label id"
          | some nm => do
            let ranking ← buildRanking st.invertedLabelDict
              ((labelIds.zip messageSim).take LABEL_RANKING_LENGTH)
            .ok ({ name := some nm, confidence := messageSim.headD 0 }, ranking)
        else .ok ({ name := none, confidence := 0 }, [])

/-- The tag list comprehension in `_predict_entities`:
`[self.inverted_tag_dict[p] for p in predictions[0]]`. -/
def lookupAll (d : List (Nat × String)) : List Nat → Except String (List String)
  | [] => .ok []
  | p :: ps =>
    match lookupKey d p with
    | none => .error "KeyError: tag id"
    | some t => do
      let rest ← lookupAll d ps
      .ok (t :: rest)

/-- Source `_predict_entities`: empty list when `self.model` is `None`;
otherwise subscript the output dict (raising on `None` or a missing
`"e_ids"` key), convert predicted tag ids to spans, stamp the extractor name,
and append the new records to the entities already on the message. -/
def _predict_entities (st : ClassifierState) (out : Option PredictOut)
    (message : Message) : Except String (List Entity) :=
  if st.modelPresent = false then .ok []
  else
    match out with
    | none => .error "TypeError: NoneType object is not subscriptable"
    | some o =>
      match o.eIds with
      | none => .error "KeyError: e_ids"
      | some predIds => do
        let tags ← lookupAll st.invertedTagDict predIds
        let entities := _convert_tags_to_entities message.text message.tokens tags
        let extracted := add_extractor_name entities
        .ok (message.entities ++ extracted)

/-- Source `process`: run `_predict`, then write intent and ranking when
intent classification is enabled and entities when entity recognition is
enabled. -/
def process (st : ClassifierState)
    (intentClassification entityRecognition : Bool)
    (tfOut : PredictOut) (message : Message) : Except String Message := do
  let out := _predict st tfOut
  let m1 ←
    (if intentClassification then do
      let lr ← _predict_label st out
      pure { message with intent := some lr.1, intentRanking := some lr.2 }
    else pure message)
  if entityRecognition then do
    let ents ← _predict_entities st out m1
    pure { m1 with entities := ents }
  else pure m1

theorem lookupAll_ok {d : List (Nat × String)} :
    ∀ {ids : List Nat}, (∀ p ∈ ids, (lookupKey d p).isSome) →
      ∃ tags, lookupAll d ids = Except.ok tags := by
  intro ids
  induction ids with
  | nil => intro _; exact ⟨[], rfl⟩
  | cons p ps ih =>
    intro h
    obtain ⟨t, ht⟩ := Option.isSome_iff_exists.mp (h p (List.mem_cons_self _ _))
    obtain ⟨rest, hrest⟩ := ih (fun q hq => h q (List.mem_cons_of_mem _ hq))
    exact ⟨t :: rest, by rw [lookupAll, ht, hrest]; rfl⟩

/-- C4 counterexample: with entity recognition enabled and no trained model,
`_predict_entities` returns `[]` and `process` writes that empty list back,
erasing the pre-existing entity — the final entities are not the pre-existing
entities followed by the newly extracted ones. -/
theorem C4_counterexample :
    ¬ ∃ (ex : List Entity) (m : Message),
        process ⟨false, false, [], []⟩ false true ⟨none, none⟩
            { text := [], tokens := [],
              entities := [⟨"PER", 0, 1, "X", none⟩] } = .ok m ∧
          m.entities = ⟨"PER", 0, 1, "X", none⟩ :: ex := by
  rintro ⟨ex, m, hproc, hents⟩
  have hrun : process ⟨false, false, [], []⟩ false true ⟨none, none⟩
      { text := [], tokens := [], entities := [⟨"PER", 0, 1, "X", none⟩] } =
      .ok { text := [], tokens := [], entities := [] } := rfl
  rw [hrun] at hproc
  injection hproc with hm
  rw [← hm] at hents
  exact List.cons_ne_nil _ _ hents.symm

/-- C4 (amended): with a trained model present, the entities written back are
the pre-existing entities followed by the newly extracted records; but when no
trained model is available the entities are replaced by the empty list,
discarding pre-existing entities. -/
theorem C4_amended (st : ClassifierState) (o : PredictOut) (msg : Message)
    (predIds : List Nat) (hm : st.modelPresent = true)
    (hids : o.eIds = some predIds)
    (hlk : ∀ p ∈ predIds, (lookupKey st.invertedTagDict p).isSome) :
    (∃ ex, _predict_entities st (some o) msg = .ok (msg.entities ++ ex)) ∧
    (∀ st2 : ClassifierState, st2.modelPresent = false →
      ∀ out2 msg2, _predict_entities st2 out2 msg2 = .ok []) := by
  constructor
  · obtain ⟨tags, htags⟩ := lookupAll_ok hlk
    refine ⟨add_extractor_name
      (_convert_tags_to_entities msg.text msg.tokens tags), ?_⟩
    unfold _predict_entities
    rw [if_neg (by rw [hm]; simp)]
    simp only [hids, htags]
    rfl
  · intro st2 h2 out2 msg2
    unfold _predict_entities
    rw [if_pos h2]

/-- Witness for C4 (amended) at a concrete state, output and message. -/
theorem C4_amended_witness :
    (∃ ex, _predict_entities ⟨true, true, [], [(0, "O")]⟩
        (some ⟨none, some [0]⟩)
        { text := [], tokens := [], entities := [⟨"PER", 0, 1, "X", none⟩] } =
      .ok ([⟨"PER", 0, 1, "X", none⟩] ++ ex)) ∧
    (∀ st2 : ClassifierState, st2.modelPresent = false →
      ∀ out2 msg2, _predict_entities st2 out2 msg2 = .ok []) :=
  C4_amended ⟨true, true, [], [(0, "O")]⟩ ⟨none, some [0]⟩
    { text := [], tokens := [], entities := [⟨"PER", 0, 1, "X", none⟩] }
    [0] rfl rfl (by decide)

/-- C7 counterexample: with `self.model` set but `self.predict_func` still
`None` (exactly the state an in-process `train` leaves behind, since `train`
never assigns `predict_func`), `_predict` returns `None` and `_predict_label`
subscripts it, raising instead of returning the neutral result the claim
promises whenever "model or predict function is None". -/
theorem C7_counterexample :
    process ⟨true, false, [], []⟩ true false ⟨none, none⟩
        { text := [], tokens := [], entities := [] } =
      .error "TypeError: NoneType object is not subscriptable" := rfl

/-- C7 (amended): when `self.model` is `None`, processing a message does not
raise: the intent is the neutral `(name: none, confidence: 0)` with an empty
ranking when intent classification is enabled, and no entities are extracted
(the entities attribute is set to the empty list) when entity recognition is
enabled. -/
theorem C7_amended (st : ClassifierState)
    (intentClassification entityRecognition : Bool)
    (tfOut : PredictOut) (msg : Message) (hm : st.modelPresent = false) :
    process st intentClassification entityRecognition tfOut msg =
      .ok { msg with
        intent := if intentClassification then
            some { name := none, confidence := 0 } else msg.intent,
        intentRanking := if intentClassification then some [] else msg.intentRanking,
        entities := if entityRecognition then [] else msg.entities } := by
  cases intentClassification <;> cases entityRecognition <;>
    · simp [process, _predict, _predict_label, _predict_entities, hm]
      try rfl

/-- Witness for C7 (amended) at a concrete untrained state and message. -/
theorem C7_amended_witness :
    process ⟨false, false, [], []⟩ true true ⟨none, none⟩
        { text := [], tokens := [], entities := [⟨"PER", 0, 1, "X", none⟩] } =
      .ok { text := [], tokens := [], entities := [],
            intent := some { name := none, confidence := 0 },
            intentRanking := some [] } := by
  have h := C7_amended ⟨false, false, [], []⟩ true true ⟨none, none⟩
    { text := [], tokens := [], entities := [⟨"PER", 0, 1, "X", none⟩] } rfl
  simpa using h

/-! ### Configuration and training -/

/-- The slice of `component_config` the modelled operations read. -/
structure ComponentConfig where
  shareHiddenLayers : Bool
  hiddenLayersSizesText : List Nat
  hiddenLayersSizesLabel : List Nat
  similarityType : String
  lossType : String
  evalNumEpochs : Int
  epochs : Int
  intentClassification : Bool
  entityRecognition : Bool
  maskedLM : Bool
  deriving DecidableEq

/-- Source `_check_config_parameters`: raise when hidden layers are shared but
the text and label size lists differ; then resolve the `"auto"` similarity
type from the loss type and clamp `evaluate_every_number_of_epochs`. -/
def _check_config_parameters (c : ComponentConfig) : Except String ComponentConfig :=
  if c.shareHiddenLayers = true ∧
      c.hiddenLayersSizesText ≠ c.hiddenLayersSizesLabel then
    .error "If hidden layer weights are shared, hidden_layer_sizes for text and label must coincide."
  else
    let c1 :=
      if c.similarityType = "auto" then
        if c.lossType = "softmax" then { c with similarityType := "inner" }
        else if c.lossType = "margin" then { c with similarityType := "cosine" }
        else c
      else c
    let c2 := if c1.evalNumEpochs < 1 then { c1 with evalNumEpochs := c1.epochs }
      else c1
    .ok c2

/-- Source `__init__`: the constructor runs `_check_config_parameters`; that
check is its only raising step on the configuration. -/
def EmbeddingIntentClassifier_init (c : ComponentConfig) :
    Except String ComponentConfig :=
  _check_config_parameters c

/-- True when the Python call would raise. -/
def exceptIsError {ε α : Type} : Except ε α → Bool
  | .error _ => true
  | .ok _ => false

/-- C8: construction raises exactly when shared hidden-layer weights are
requested while the text and label hidden-layer-size lists differ; every
other configuration passes this check. -/
theorem C8_construction_check (c : ComponentConfig) :
    exceptIsError (EmbeddingIntentClassifier_init c) = true ↔
      (c.shareHiddenLayers = true ∧
        c.hiddenLayersSizesText ≠ c.hiddenLayersSizesLabel) := by
  by_cases h : c.shareHiddenLayers = true ∧
      c.hiddenLayersSizesText ≠ c.hiddenLayersSizesLabel
  · simp [EmbeddingIntentClassifier_init, _check_config_parameters, if_pos h,
      exceptIsError, h]
  · simp only [EmbeddingIntentClassifier_init, _check_config_parameters,
      if_neg h]
    constructor
    · intro hc
      exact absurd hc (by split_ifs <;> simp [exceptIsError])
    · intro hc
      exact absurd hc h

/-- The outcome of a call to `train`: whether the insufficient-label message
was logged and whether `fit` was reached. -/
structure TrainOutcome where
  loggedSkip : Bool
  fitCalled : Bool
  deriving DecidableEq

/-- Source `_check_enough_labels`:
`len(np.unique(model_data.get("label_ids"))) >= 2`. -/
def _check_enough_labels (labelIds : List Nat) : Bool :=
  decide (2 ≤ labelIds.dedup.length)

/-- Source `train`: when intent classification is enabled and there are fewer
than 2 distinct label ids, it logs and returns before `self.data_example`,
`DIET(...)` and `self.model.fit(...)`; otherwise it reaches `fit`. -/
def train (c : ComponentConfig) (labelIds : List Nat) : TrainOutcome :=
  if c.intentClassification = true ∧ _check_enough_labels labelIds = false then
    { loggedSkip := true, fitCalled := false }
  else { loggedSkip := false, fitCalled := true }

/-- The objectives whose losses `fit` updates (from `_train_losses_scores`):
each enabled objective trains during `fit`, and nothing trains when `fit` was
never reached. -/
def objectivesTrained (c : ComponentConfig) (o : TrainOutcome) : List String :=
  if o.fitCalled then
    (if c.maskedLM then ["masked_lm"] else []) ++
    (if c.intentClassification then ["intent"] else []) ++
    (if c.entityRecognition then ["entity"] else [])
  else []

/-- C2 counterexample: with intent classification, entity recognition and the
masked-LM all enabled but only one distinct label id, `train` returns early,
so entity recognition does not train — contradicting the claim that only the
intent objective is skipped. -/
theorem C2_counterexample :
    train ⟨false, [], [], "auto", "softmax", 20, 300, true, true, true⟩ [0] =
      { loggedSkip := true, fitCalled := false } ∧
    "entity" ∉ objectivesTrained
      ⟨false, [], [], "auto", "softmax", 20, 300, true, true, true⟩
      (train ⟨false, [], [], "auto", "softmax", 20, 300, true, true, true⟩ [0]) ∧
    ComponentConfig.entityRecognition
      ⟨false, [], [], "auto", "softmax", 20, 300, true, true, true⟩ = true := by
  decide

/-- C2 (amended): with intent classification enabled and fewer than 2 distinct
label ids, `train` logs the condition and returns early without raising; the
entire training is skipped, so no objective — intent, entity recognition or
masked-LM — trains. -/
theorem C2_amended (c : ComponentConfig) (labelIds : List Nat)
    (hint : c.intentClassification = true)
    (hlab : labelIds.dedup.length < 2) :
    train c labelIds = { loggedSkip := true, fitCalled := false } ∧
    objectivesTrained c (train c labelIds) = [] := by
  have henough : _check_enough_labels labelIds = false := by
    simp [_check_enough_labels]
    omega
  have htrain : train c labelIds = { loggedSkip := true, fitCalled := false } := by
    rw [train, if_pos ⟨hint, henough⟩]
  exact ⟨htrain, by rw [htrain]; rfl⟩

/-- Witness for C2 (amended) at a concrete configuration and label set. -/
theorem C2_amended_witness :
    train ⟨false, [], [], "auto", "softmax", 20, 300, true, false, false⟩ [0, 0] =
      { loggedSkip := true, fitCalled := false } ∧
    objectivesTrained ⟨false, [], [], "auto", "softmax", 20, 300, true, false, false⟩
      (train ⟨false, [], [], "auto", "softmax", 20, 300, true, false, false⟩
        [0, 0]) = [] :=
  C2_amended ⟨false, [], [], "auto", "softmax", 20, 300, true, false, false⟩
    [0, 0] rfl (by decide)

/-! ### Confidence ranking (C9) -/

theorem argsortDesc_length (sim : List ℚ) :
    (argsortDesc sim).length = sim.length := by
  rw [argsortDesc, List.length_reverse, List.length_insertionSort,
    List.length_range]

theorem sortDesc_length (sim : List ℚ) : (sortDesc sim).length = sim.length :=
  List.length_insertionSort _ _

theorem sortDesc_sorted (sim : List ℚ) :
    List.Sorted (fun a b : ℚ => b ≤ a) (sortDesc sim) := by
  haveI ht : IsTotal ℚ (fun a b : ℚ => b ≤ a) := ⟨fun a b => le_total b a⟩
  haveI htr : IsTrans ℚ (fun a b : ℚ => b ≤ a) :=
    ⟨fun a b c h1 h2 => le_trans h2 h1⟩
  exact List.sorted_insertionSort _ _

theorem mem_argsortDesc {sim : List ℚ} {i : Nat} (h : i ∈ argsortDesc sim) :
    i < sim.length := by
  rw [argsortDesc, List.mem_reverse, List.mem_insertionSort,
    List.mem_range] at h
  exact h

theorem buildRanking_eq {inv : List (Nat × String)} :
    ∀ {pairs : List (Nat × ℚ)},
      (∀ p ∈ pairs, (lookupKey inv p.1).isSome) →
      buildRanking inv pairs =
        Except.ok (pairs.map
          (fun p => { name := lookupKey inv p.1, confidence := p.2 })) := by
  intro pairs
  induction pairs with
  | nil => intro _; rfl
  | cons p ps ih =>
    intro h
    obtain ⟨nm, hnm⟩ := Option.isSome_iff_exists.mp
      (h p (List.mem_cons_self _ _))
    have hrest := ih (fun q hq => h q (List.mem_cons_of_mem _ hq))
    rw [buildRanking, hnm, hrest]
    simp only [List.map_cons, hnm]
    rfl

theorem predict_label_ok (st : ClassifierState) (sim : List ℚ) (i : Nat)
    (is : List Nat) (q : ℚ) (qs : List ℚ) (nm : String)
    (hm : st.modelPresent = true)
    (hL : argsortDesc sim = i :: is) (hQ : sortDesc sim = q :: qs)
    (hnm : lookupKey st.invertedLabelDict i = some nm)
    (hrank : ∀ p ∈ ((i :: is).zip (q :: qs)).take LABEL_RANKING_LENGTH,
      (lookupKey st.invertedLabelDict p.1).isSome) :
    _predict_label st (some { iScores := some sim, eIds := none }) =
      Except.ok ({ name := some nm, confidence := q },
        (((i :: is).zip (q :: qs)).take LABEL_RANKING_LENGTH).map
          (fun p => { name := lookupKey st.invertedLabelDict p.1,
                      confidence := p.2 })) := by
  unfold _predict_label
  rw [if_neg (by rw [hm]; simp)]
  simp only [hL, hQ, List.length_cons, List.headD_cons]
  rw [if_pos (Nat.succ_pos _)]
  rw [hnm, buildRanking_eq hrank]
  rfl

/-- C9: for a non-empty similarity vector (and an inverted label dict covering
its indices), `_predict_label` succeeds, the ranking's confidences are sorted
non-increasingly, its first entry equals the returned top intent, and its
length is at most `LABEL_RANKING_LENGTH`. -/
theorem C9_ranking (st : ClassifierState) (sim : List ℚ)
    (hm : st.modelPresent = true) (hsim : sim ≠ [])
    (hcov : ∀ i, i < sim.length → (lookupKey st.invertedLabelDict i).isSome) :
    ∃ label ranking,
      _predict_label st (some { iScores := some sim, eIds := none }) =
        Except.ok (label, ranking) ∧
      List.Sorted (fun a b : ℚ => b ≤ a) (ranking.map IntentResult.confidence) ∧
      ranking.head? = some label ∧
      ranking.length ≤ LABEL_RANKING_LENGTH := by
  obtain ⟨i, is, hL⟩ : ∃ i is, argsortDesc sim = i :: is := by
    cases h : argsortDesc sim with
    | nil =>
      have := argsortDesc_length sim
      rw [h] at this
      exact absurd (List.length_eq_zero.mp this.symm) hsim
    | cons a l => exact ⟨a, l, rfl⟩
  obtain ⟨q, qs, hQ⟩ : ∃ q qs, sortDesc sim = q :: qs := by
    cases h : sortDesc sim with
    | nil =>
      have := sortDesc_length sim
      rw [h] at this
      exact absurd (List.length_eq_zero.mp this.symm) hsim
    | cons a l => exact ⟨a, l, rfl⟩
  have hiS : i < sim.length :=
    mem_argsortDesc (by rw [hL]; exact List.mem_cons_self _ _)
  obtain ⟨nm, hnm⟩ := Option.isSome_iff_exists.mp (hcov i hiS)
  have hrank : ∀ p ∈ ((i :: is).zip (q :: qs)).take LABEL_RANKING_LENGTH,
      (lookupKey st.invertedLabelDict p.1).isSome := by
    intro p hp
    obtain ⟨a, b⟩ := p
    have hz : (a, b) ∈ (i :: is).zip (q :: qs) :=
      (List.take_sublist _ _).mem hp
    have ha : a ∈ i :: is := (List.of_mem_zip hz).1
    have : a ∈ argsortDesc sim := by rw [hL]; exact ha
    exact hcov a (mem_argsortDesc this)
  refine ⟨{ name := some nm, confidence := q },
    (((i :: is).zip (q :: qs)).take LABEL_RANKING_LENGTH).map
      (fun p => { name := lookupKey st.invertedLabelDict p.1,
                  confidence := p.2 }),
    predict_label_ok st sim i is q qs nm hm hL hQ hnm hrank, ?_, ?_, ?_⟩
  · have hmap : ((((i :: is).zip (q :: qs)).take LABEL_RANKING_LENGTH).map
        (fun p : Nat × ℚ =>
          ({ name := lookupKey st.invertedLabelDict p.1,
             confidence := p.2 } : IntentResult))).map IntentResult.confidence =
        (q :: qs).take LABEL_RANKING_LENGTH := by
      rw [List.map_map]
      have h1 : (IntentResult.confidence ∘ fun p : Nat × ℚ =>
          ({ name := lookupKey st.invertedLabelDict p.1,
             confidence := p.2 } : IntentResult)) = Prod.snd := rfl
      rw [h1, List.map_take, List.map_snd_zip]
      have e1 := argsortDesc_length sim
      have e2 := sortDesc_length sim
      rw [hL] at e1
      rw [hQ] at e2
      omega
    rw [hmap]
    have : List.Sorted (fun a b : ℚ => b ≤ a) (q :: qs) := by
      rw [← hQ]; exact sortDesc_sorted sim
    exact this.sublist (List.take_sublist _ _)
  · have h10 : LABEL_RANKING_LENGTH = 9 + 1 := rfl
    rw [List.zip_cons_cons, h10, List.take_succ_cons, List.map_cons,
      List.head?_cons, hnm]
  · rw [List.length_map]
    exact List.length_take_le _ _

/-- Witness for C9 at a concrete two-score vector and label dictionary. -/
theorem C9_ranking_witness :
    ∃ label ranking,
      _predict_label ⟨true, true, [(0, "bye"), (1, "greet")], []⟩
          (some { iScores := some [1, 3], eIds := none }) =
        Except.ok (label, ranking) ∧
      List.Sorted (fun a b : ℚ => b ≤ a) (ranking.map IntentResult.confidence) ∧
      ranking.head? = some label ∧
      ranking.length ≤ LABEL_RANKING_LENGTH :=
  C9_ranking ⟨true, true, [(0, "bye"), (1, "greet")], []⟩ [1, 3] rfl
    (by decide) (by decide)

/-! ### The DIET prediction path (C1) -/

/-- The instance attributes `DIET.__init__` assigns, directly or through
`_prepare_layers` (which stores every layer under `self._tf_layers[...]`).
Attributes of the keras base class are omitted; no method of `DIET` assigns
`_embed`, `_loss_label` or `_crf`. -/
def dietAssignedAttrs : List String :=
  ["data_signature", "tf_label_data", "_num_tags", "config", "_tf_layers",
   "training", "_optimizer", "intent_acc", "intent_loss", "mask_loss",
   "mask_acc", "entity_loss", "entity_f1", "all_labels_embed",
   "batch_tuple_sizes"]

/-- Python instance-attribute lookup `self.name` on a `DIET` instance:
raises `AttributeError` when the attribute was never assigned (methods
resolve on the class and are not modelled). -/
def getattrDIET (name : String) : Except String Unit :=
  if name ∈ dietAssignedAttrs then .ok ()
  else .error ("AttributeError: " ++ name)

/-- Source `DIET.predict`: instance-attribute reads in source order.  The
shared encoder path reads `data_signature`, `_tf_layers` and `config`; the
intent branch then reads `self._embed`, `self._loss_label` and
`self.all_labels_embed`; the entity branch reads `self._embed` and
`self._crf`.  Returns the keys of the output dict when no lookup fails. -/
def DIET_predict (intentClassification entityRecognition : Bool) :
    Except String (List String) := do
  _ ← getattrDIET "data_signature"
  _ ← getattrDIET "_tf_layers"
  _ ← getattrDIET "config"
  let out1 ←
    if intentClassification then do
      _ ← getattrDIET "_embed"
      _ ← getattrDIET "_loss_label"
      _ ← getattrDIET "all_labels_embed"
      pure ["i_scores"]
    else pure ([] : List String)
  let out2 ←
    if entityRecognition then do
      _ ← getattrDIET "_embed"
      _ ← getattrDIET "_crf"
      pure (out1 ++ ["e_ids"])
    else pure out1
  pure out2

/-- C1: `_prepare_layers` never assigns `_embed`, `_loss_label` or `_crf`
(layers are stored in `self._tf_layers[...]`), so whenever intent
classification or entity recognition is enabled `DIET.predict` reaches a
lookup of an unassigned attribute and raises `AttributeError` instead of
returning a score/tag result. -/
theorem C1_predict_attribute_error
    (intentClassification entityRecognition : Bool)
    (h : intentClassification = true ∨ entityRecognition = true) :
    "_embed" ∉ dietAssignedAttrs ∧ "_loss_label" ∉ dietAssignedAttrs ∧
    "_crf" ∉ dietAssignedAttrs ∧
    DIET_predict intentClassification entityRecognition =
      .error ("AttributeError: " ++ "_embed") := by
  rcases h with h | h
  · subst h
    cases entityRecognition <;> exact ⟨by decide, by decide, by decide, rfl⟩
  · subst h
    cases intentClassification <;> exact ⟨by decide, by decide, by decide, rfl⟩

/-- Witness for C1 with intent classification enabled. -/
theorem C1_predict_attribute_error_witness :
    "_embed" ∉ dietAssignedAttrs ∧ "_loss_label" ∉ dietAssignedAttrs ∧
    "_crf" ∉ dietAssignedAttrs ∧
    DIET_predict true false = .error ("AttributeError: " ++ "_embed") :=
  C1_predict_attribute_error true false (Or.inl rfl)

/-! ### Masked-LM selection mask (C3) -/

/-- tensorflow `tf.scatter_nd([[0, 0, 0]], [True], tf.shape(lm_mask_bool))`:
a fresh all-false tensor of the mask's shape with a single true entry at
batch index 0, sequence position 0 (the trailing axis of extent 1 is
modelled away). -/
def scatter_nd_true00 (m : List (List Bool)) : List (List Bool) :=
  m.enum.map (fun r => r.2.enum.map (fun c => r.1 == 0 && c.1 == 0))

/-- Source `_mask_loss`, fix-up step: `tf.cond(tf.reduce_any(lm_mask_bool),
...)` — if any entry anywhere in the batch is true the drawn mask is kept,
otherwise the scatter output replaces it.  `m` is the boolean selection mask
drawn by `InputMask`, indexed batch × position. -/
def fixLmMask (m : List (List Bool)) : List (List Bool) :=
  if m.any (fun row => row.any id) then m else scatter_nd_true00 m

/-- Membership of one boolean mask in another, per position: the drawn
selection mask only selects non-padding positions. -/
def maskSubset (m nonPad : List (List Bool)) : Bool :=
  (m.zip nonPad).all (fun r => (r.1.zip r.2).all (fun c => !c.1 || c.2))

/-- C3 counterexample: a two-sequence batch, both sequences with a
non-padding token, where the random draw selected a position only in
sequence 0.  The draw is a valid subset of the non-padding positions, yet the
fix-up leaves it unchanged and sequence 1's mask has no true entry: the
source's `tf.reduce_any` guarantee is batch-global, not per-sequence, and
the forced position is always sequence 0's position 0. -/
theorem C3_counterexample :
    maskSubset [[true], [false]] [[true], [true]] = true ∧
    (([[true], [true]] : List (List Bool)).getD 1 []).any id = true ∧
    fixLmMask [[true], [false]] = [[true], [false]] ∧
    ((fixLmMask [[true], [false]]).getD 1 []).any id = false := by decide

/-- C3 (amended): the guarantee is per batch, not per sequence: for any
non-empty batch whose first sequence has at least one position, the fixed
selection mask has at least one true entry — when the draw selected no
position anywhere, position 0 of sequence 0 is forced to true. -/
theorem C3_amended (m : List (List Bool)) (h0 : 0 < m.length)
    (h1 : 0 < (m.headD []).length) :
    (fixLmMask m).any (fun row => row.any id) = true := by
  rw [fixLmMask]
  by_cases h : m.any (fun row => row.any id)
  · rw [if_pos h]; exact h
  · rw [if_neg h]
    cases m with
    | nil => simp at h0
    | cons r rs =>
      cases r with
      | nil => simp at h1
      | cons b bs =>
        simp [scatter_nd_true00, List.enum_cons]

/-- Witness for C3 (amended): a one-sequence batch where nothing was drawn. -/
theorem C3_amended_witness :
    (fixLmMask [[false]]).any (fun row => row.any id) = true :=
  C3_amended [[false]] (by decide) (by decide)

/-! ### Determinism of training runs (C10) -/

/-- Modelled from the spec: the ambient numpy global RNG state that a process
carries between training runs. -/
structure GlobalRngState where
  state : Nat
  deriving DecidableEq

/-- Modelled from the spec: a seeded linear congruential generator standing
in for numpy's seeded global generator. -/
def lcg (s : Nat) : Nat := (1103515245 * s + 12345) % 2147483648

/-- Source `np.random.seed(self.component_config[RANDOM_SEED])` at the start
of `train`: the ambient RNG state is discarded and replaced by a state
derived from the configured seed alone. -/
def npRandomSeed (seed : Nat) (_ : GlobalRngState) : GlobalRngState :=
  ⟨lcg seed⟩

/-- Modelled from the spec: batching shuffles the example order with the
seeded generator (`RasaModelData` batching is not under src; the spec says
batch ordering is deterministic given a fixed random seed). -/
def shuffleWithSeed {α : Type} (s : Nat) (l : List α) : List α :=
  (List.insertionSort (fun a b : Nat × α => a.1 ≤ b.1)
    (l.enum.map (fun p => (lcg (s + p.1), p.2)))).map Prod.snd

/-- The artifacts of one training run's preprocessing and batching prefix. -/
structure TrainArtifacts where
  labelDict : List (String × Nat)
  tagDict : List (String × Nat)
  batchOrder : List Nat
  deriving DecidableEq

/-- The deterministic prefix of `train`: seed the global RNG, build the label
and tag dictionaries from the corpus, and produce the epoch's example order
from the seeded generator (spec-modelled shuffle). -/
def trainRun (g : GlobalRngState) (randomSeed : Nat)
    (labels entityTags : List (Option String)) (exampleIds : List Nat) :
    TrainArtifacts :=
  let g1 := npRandomSeed randomSeed g
  { labelDict := _create_label_id_dict labels,
    tagDict := _create_tag_id_dict entityTags,
    batchOrder := shuffleWithSeed g1.state exampleIds }

/-- C10: two training runs on the same corpus with the same configuration and
the same fixed seed produce identical label dictionaries, identical tag
dictionaries and identical batch ordering, whatever ambient RNG states the
two runs start from (the seed reset erases them). -/
theorem C10_determinism (g1 g2 : GlobalRngState) (randomSeed : Nat)
    (labels entityTags : List (Option String)) (exampleIds : List Nat) :
    trainRun g1 randomSeed labels entityTags exampleIds =
      trainRun g2 randomSeed labels entityTags exampleIds := rfl
